import Mathlib

/-!
Shallow embedding of the `gh-repo-info` crate (`src/lib.rs`).

Strings handled by the URL builder are modelled as lists of octets
(`List Nat`, each `< 256`), mirroring `urlencoding::encode`, which walks
the UTF-8 bytes of its input.  JSON response bodies are modelled by the
`Json` inductive below; JSON numbers are modelled as integers, which is
sufficient for the fields the crate consumes (four `usize` counts).
The serde-derived decoders for `GhRepoInfo`, `GhRepoOwnerInfo`,
`GhRepoOwnerKind` and `GhRepoLicenseInfo` are embedded as total
functions `Json → Option _`: serde's derive rejects a duplicated known
field, ignores unknown fields, and requires every declared field
(none is `Option` in the source), which is what `dupKnownKey` together
with first-occurrence lookup implements.
-/

/-- JSON values (numbers restricted to integers, see module docstring). -/
inductive Json where
  | null
  | bool (b : Bool)
  | num (n : Int)
  | str (s : String)
  | arr (xs : List Json)
  | obj (fields : List (String × Json))

/-- `urlencoding`'s unreserved set: ASCII letters, digits, `-`, `.`, `_`, `~`. -/
def isUnreservedByte (b : Nat) : Bool :=
  decide ((48 ≤ b ∧ b ≤ 57) ∨ (65 ≤ b ∧ b ≤ 90) ∨ (97 ≤ b ∧ b ≤ 122) ∨
    b = 45 ∨ b = 46 ∨ b = 95 ∨ b = 126)

/-- Upper-case hexadecimal digit for a nibble, as produced by `urlencoding`. -/
def upperHexDigit (n : Nat) : Nat :=
  if n < 10 then 48 + n else 55 + n

/-- One step of `urlencoding::encode`: an unreserved byte is kept,
any other byte becomes `%` followed by two upper-case hex digits. -/
def encodeByte (b : Nat) : List Nat :=
  if isUnreservedByte b then [b] else [37, upperHexDigit (b / 16), upperHexDigit (b % 16)]

/-- `urlencoding::encode` over the octets of the input. -/
def percentEncode (s : List Nat) : List Nat :=
  s.flatMap encodeByte

/-- Octets of an ASCII string literal. -/
def strBytes (s : String) : List Nat :=
  s.data.map Char.toNat

/-- The fixed part of the endpoint, from `format!("https://api.github.com/repos/{owner}/{repo}")`. -/
def urlBase : List Nat :=
  strBytes "https://api.github.com/repos/"

/-- Embedding of `api_url` (src/lib.rs lines 194-199): percent-encode both
segments and splice them into the fixed format string (47 is the slash). -/
def api_url (owner repo : List Nat) : List Nat :=
  urlBase ++ percentEncode owner ++ [47] ++ percentEncode repo

/-- `GhRepoOwnerKind` (src/lib.rs lines 122-126). -/
inductive GhRepoOwnerKind where
  | User
  | Organization
  deriving DecidableEq

/-- `GhRepoLicenseInfo` (src/lib.rs lines 128-132). -/
structure GhRepoLicenseInfo where
  key : String
  name : String
  deriving DecidableEq

/-- `GhRepoOwnerInfo` (src/lib.rs lines 111-120).  The struct-field names are
kept; the external JSON names live in the decoder and in `ghRepoOwnerInfoFieldMap`. -/
structure GhRepoOwnerInfo where
  name : String
  url : String
  avatar_url : String
  kind : GhRepoOwnerKind
  deriving DecidableEq

/-- `GhRepoInfo` (src/lib.rs lines 79-109). -/
structure GhRepoInfo where
  name : String
  full_name : String
  url : String
  owner : GhRepoOwnerInfo
  stargazers_count : Nat
  subscribers_count : Nat
  forks_count : Nat
  open_issues_count : Nat
  is_fork : Bool
  is_archived : Bool
  default_branch : String
  homepage : String
  description : String
  license : GhRepoLicenseInfo
  language : String
  topics : List String
  deriving DecidableEq

/-- serde: a JSON string decodes to `String`; anything else is an error. -/
def decodeString : Json → Option String
  | .str s => some s
  | _ => none

/-- serde: a JSON boolean decodes to `bool`; anything else is an error. -/
def decodeBool : Json → Option Bool
  | .bool b => some b
  | _ => none

/-- serde: a non-negative JSON integer decodes to `usize`; a negative
integer (or any non-number) is an error — never wrapped or clamped. -/
def decodeUsize : Json → Option Nat
  | .num n => if 0 ≤ n then some n.toNat else none
  | _ => none

/-- serde derive on `GhRepoOwnerKind`: exactly the two literals
`"User"` and `"Organization"` are accepted. -/
def decodeOwnerKind : Json → Option GhRepoOwnerKind
  | .str s =>
      if s = "User" then some .User
      else if s = "Organization" then some .Organization
      else none
  | _ => none

/-- serde: `Vec<String>` decodes from a JSON array of strings. -/
def decodeStringArray : Json → Option (List String)
  | .arr xs => xs.mapM decodeString
  | _ => none

/-- The external (wire) field names recognised by a derived struct decoder. -/
def dupKnownKey (keys : List String) (fs : List (String × Json)) : Bool :=
  keys.any fun k => 1 < fs.countP fun kv => kv.1 == k

/-- First occurrence of a key among an object's entries. -/
def lookupKey (k : String) : List (String × Json) → Option Json
  | [] => none
  | kv :: t => if kv.1 == k then some kv.2 else lookupKey k t

/-- A required struct field: first occurrence of the external key, then
the value decoder; a missing key or an undecodable value is an error. -/
def reqField {α : Type} (dec : Json → Option α) (k : String) (fs : List (String × Json)) : Option α :=
  (lookupKey k fs).bind dec

/-- External keys of `GhRepoLicenseInfo` (no serde renames). -/
def licenseKeys : List String := ["key", "name"]

/-- Derived decoder of `GhRepoLicenseInfo` from an object's fields. -/
def decodeLicenseFields (fs : List (String × Json)) : Option GhRepoLicenseInfo :=
  if dupKnownKey licenseKeys fs then none else
  match reqField decodeString "key" fs, reqField decodeString "name" fs with
  | some key, some name => some ⟨key, name⟩
  | _, _ => none

/-- serde: `GhRepoLicenseInfo` decodes from a JSON object only. -/
def decodeLicense : Json → Option GhRepoLicenseInfo
  | .obj fs => decodeLicenseFields fs
  | _ => none

/-- External keys of `GhRepoOwnerInfo`: `login`, `html_url`, `avatar_url`, `type`
(the serde renames of `name`, `url` and `kind` included). -/
def ownerKeys : List String := ["login", "html_url", "avatar_url", "type"]

/-- Derived decoder of `GhRepoOwnerInfo` from an object's fields. -/
def decodeOwnerFields (fs : List (String × Json)) : Option GhRepoOwnerInfo :=
  if dupKnownKey ownerKeys fs then none else
  match reqField decodeString "login" fs, reqField decodeString "html_url" fs,
      reqField decodeString "avatar_url" fs, reqField decodeOwnerKind "type" fs with
  | some name, some url, some avatar_url, some kind => some ⟨name, url, avatar_url, kind⟩
  | _, _, _, _ => none

/-- serde: `GhRepoOwnerInfo` decodes from a JSON object only. -/
def decodeOwner : Json → Option GhRepoOwnerInfo
  | .obj fs => decodeOwnerFields fs
  | _ => none

/-- External keys of `GhRepoInfo` in declaration order, with the serde
renames `html_url`, `fork`, `archived` in place of `url`, `is_fork`, `is_archived`. -/
def repoKeys : List String :=
  ["name", "full_name", "html_url", "owner", "stargazers_count", "subscribers_count",
   "forks_count", "open_issues_count", "fork", "archived", "default_branch",
   "homepage", "description", "license", "language", "topics"]

/-- Derived decoder of `GhRepoInfo` from an object's fields. -/
def decodeRepoFields (fs : List (String × Json)) : Option GhRepoInfo :=
  if dupKnownKey repoKeys fs then none else
  match reqField decodeString "name" fs, reqField decodeString "full_name" fs,
      reqField decodeString "html_url" fs, reqField decodeOwner "owner" fs,
      reqField decodeUsize "stargazers_count" fs, reqField decodeUsize "subscribers_count" fs,
      reqField decodeUsize "forks_count" fs, reqField decodeUsize "open_issues_count" fs,
      reqField decodeBool "fork" fs, reqField decodeBool "archived" fs,
      reqField decodeString "default_branch" fs, reqField decodeString "homepage" fs,
      reqField decodeString "description" fs, reqField decodeLicense "license" fs,
      reqField decodeString "language" fs, reqField decodeStringArray "topics" fs with
  | some name, some full_name, some url, some owner, some star, some sub, some forks,
      some issues, some is_fork, some is_archived, some default_branch, some homepage,
      some description, some license, some language, some topics =>
    some ⟨name, full_name, url, owner, star, sub, forks, issues, is_fork, is_archived,
      default_branch, homepage, description, license, language, topics⟩
  | _, _, _, _, _, _, _, _, _, _, _, _, _, _, _, _ => none

/-- serde: `GhRepoInfo` decodes from a JSON object only
(this is `resp.json::<GhRepoInfo>()` on the body). -/
def decodeGhRepoInfo : Json → Option GhRepoInfo
  | .obj fs => decodeRepoFields fs
  | _ => none

/-- Model of `reqwest::Error` (an opaque cause carrying a message). -/
structure ReqwestError where
  message : String
  deriving DecidableEq

/-- `GhRepoInfoError` (src/lib.rs lines 201-206): `SendRequest` and
`DeserializeFailed` wrap a `reqwest::Error`; `ResponseNonSuccess` carries
the numeric status code. -/
inductive GhRepoInfoError where
  | SendRequest (err : ReqwestError)
  | ResponseNonSuccess (code : Nat)
  | DeserializeFailed (err : ReqwestError)
  deriving DecidableEq

/-- `Error::source` (src/lib.rs lines 208-216). -/
def GhRepoInfoError.source : GhRepoInfoError → Option ReqwestError
  | .SendRequest err => some err
  | .ResponseNonSuccess _ => none
  | .DeserializeFailed err => some err

/-- `Display::fmt` (src/lib.rs lines 218-226); the status code renders
through its numeric value. -/
def GhRepoInfoError.display : GhRepoInfoError → String
  | .SendRequest err => "send request failed: " ++ err.message
  | .ResponseNonSuccess code => "response non-successful: " ++ toString code
  | .DeserializeFailed err => "deserialization failed: " ++ err.message

/-- An HTTP response as the transport hands it back: status line and body. -/
structure HttpResponse where
  status : Nat
  body : Json

/-- Outcome of `send()`: either a transport-level `reqwest::Error`
or a complete response. -/
inductive TransportEvent where
  | failure (err : ReqwestError)
  | response (resp : HttpResponse)

/-- `StatusCode::is_success`: the 2xx range. -/
def statusIsSuccess (code : Nat) : Bool :=
  decide (200 ≤ code ∧ code < 300)

/-- The `reqwest::Error` produced when `.json()` fails to decode the body. -/
def decodeBodyError : ReqwestError :=
  ⟨"error decoding response body"⟩

namespace gh_repo_info

/-- Embedding of the async `get` (src/lib.rs lines 135-159).  The network is
a function from the requested URL to the transport outcome; the function
builds the URL with `api_url`, maps a send failure to `SendRequest`,
short-circuits a non-2xx status to `ResponseNonSuccess` without touching
the body, and otherwise decodes the body, mapping failure to
`DeserializeFailed`. -/
def get (owner repo : List Nat) (world : List Nat → TransportEvent) :
    Except GhRepoInfoError GhRepoInfo :=
  match world (api_url owner repo) with
  | .failure err => .error (.SendRequest err)
  | .response resp =>
    if !statusIsSuccess resp.status then .error (.ResponseNonSuccess resp.status)
    else
      match decodeGhRepoInfo resp.body with
      | some info => .ok info
      | none => .error (.DeserializeFailed decodeBodyError)

namespace blocking

/-- Embedding of `blocking::get` (src/lib.rs lines 169-191), the source's
duplicated synchronous copy of the same steps over the blocking client. -/
def get (owner repo : List Nat) (world : List Nat → TransportEvent) :
    Except GhRepoInfoError GhRepoInfo :=
  match world (api_url owner repo) with
  | .failure err => .error (.SendRequest err)
  | .response resp =>
    if !statusIsSuccess resp.status then .error (.ResponseNonSuccess resp.status)
    else
      match decodeGhRepoInfo resp.body with
      | some info => .ok info
      | none => .error (.DeserializeFailed decodeBodyError)

end blocking

end gh_repo_info

/-- The (external JSON name, struct field name) pairs of `GhRepoInfo`
(src/lib.rs lines 79-109), in declaration order; serde renames are
`html_url` → `url`, `fork` → `is_fork`, `archived` → `is_archived`. -/
def ghRepoInfoFieldMap : List (String × String) :=
  [("name", "name"), ("full_name", "full_name"), ("html_url", "url"), ("owner", "owner"),
   ("stargazers_count", "stargazers_count"), ("subscribers_count", "subscribers_count"),
   ("forks_count", "forks_count"), ("open_issues_count", "open_issues_count"),
   ("fork", "is_fork"), ("archived", "is_archived"), ("default_branch", "default_branch"),
   ("homepage", "homepage"), ("description", "description"), ("license", "license"),
   ("language", "language"), ("topics", "topics")]

/-- The (external JSON name, struct field name) pairs of `GhRepoOwnerInfo`
(src/lib.rs lines 111-120); serde renames are `login` → `name`,
`html_url` → `url`, `type` → `kind`. -/
def ghRepoOwnerInfoFieldMap : List (String × String) :=
  [("login", "name"), ("html_url", "url"), ("avatar_url", "avatar_url"), ("type", "kind")]

/-- The (external JSON name, struct field name) pairs of `GhRepoLicenseInfo`
(src/lib.rs lines 128-132); no renames. -/
def ghRepoLicenseInfoFieldMap : List (String × String) :=
  [("key", "key"), ("name", "name")]

theorem upperHexDigit_range (n : Nat) (hn : n < 16) :
    (48 ≤ upperHexDigit n ∧ upperHexDigit n ≤ 57) ∨ (65 ≤ upperHexDigit n ∧ upperHexDigit n ≤ 70) := by
  unfold upperHexDigit
  split <;> omega

theorem mem_percentEncode (s : List Nat) (hs : ∀ x ∈ s, x < 256) (b : Nat)
    (hb : b ∈ percentEncode s) :
    isUnreservedByte b = true ∨ b = 37 ∨ (48 ≤ b ∧ b ≤ 57) ∨ (65 ≤ b ∧ b ≤ 70) := by
  rcases List.mem_flatMap.mp hb with ⟨x, hx, hbx⟩
  unfold encodeByte at hbx
  split at hbx
  · simp only [List.mem_singleton] at hbx
    subst hbx
    exact Or.inl (by assumption)
  · have hx256 : x < 256 := hs x hx
    have hdiv : x / 16 < 16 := by omega
    have hmod : x % 16 < 16 := by omega
    simp only [List.mem_cons, List.not_mem_nil, or_false] at hbx
    rcases hbx with h | h | h
    · exact Or.inr (Or.inl h)
    · subst h
      rcases upperHexDigit_range (x / 16) hdiv with h | h
      · exact Or.inr (Or.inr (Or.inl h))
      · exact Or.inr (Or.inr (Or.inr h))
    · subst h
      rcases upperHexDigit_range (x % 16) hmod with h | h
      · exact Or.inr (Or.inr (Or.inl h))
      · exact Or.inr (Or.inr (Or.inr h))

/-- C1: `api_url` returns exactly the fixed host path followed by the
percent-encoding of `owner`, a slash (47), and the percent-encoding of
`repo`; every byte of the two encoded segments is an unreserved byte, a
percent sign (37) or an upper-case hex digit, so the segments contain no
unencoded slash (47), question mark (63), hash (35) or space (32). -/
theorem api_url_percent_encodes_segments (owner repo : List Nat)
    (hbytes : ∀ x ∈ owner ++ repo, x < 256) :
    api_url owner repo = urlBase ++ percentEncode owner ++ [47] ++ percentEncode repo ∧
    (∀ b ∈ percentEncode owner ++ percentEncode repo,
      isUnreservedByte b = true ∨ b = 37 ∨ (48 ≤ b ∧ b ≤ 57) ∨ (65 ≤ b ∧ b ≤ 70)) ∧
    (∀ b ∈ percentEncode owner ++ percentEncode repo,
      b ≠ 47 ∧ b ≠ 63 ∧ b ≠ 35 ∧ b ≠ 32) := by
  have howner : ∀ x ∈ owner, x < 256 := fun x hx => hbytes x (List.mem_append_left _ hx)
  have hrepo : ∀ x ∈ repo, x < 256 := fun x hx => hbytes x (List.mem_append_right _ hx)
  have hmem : ∀ b ∈ percentEncode owner ++ percentEncode repo,
      isUnreservedByte b = true ∨ b = 37 ∨ (48 ≤ b ∧ b ≤ 57) ∨ (65 ≤ b ∧ b ≤ 70) := by
    intro b hb
    rcases List.mem_append.mp hb with h | h
    · exact mem_percentEncode owner howner b h
    · exact mem_percentEncode repo hrepo b h
  refine ⟨rfl, hmem, ?_⟩
  intro b hb
  rcases hmem b hb with h | h | h | h
  · simp only [isUnreservedByte, decide_eq_true_eq] at h
    omega
  · omega
  · omega
  · omega

theorem api_url_percent_encodes_segments_witness :
    (∀ x ∈ ([97, 47, 98] ++ [63, 32] : List Nat), x < 256) ∧
    (api_url [97, 47, 98] [63, 32] =
      urlBase ++ percentEncode [97, 47, 98] ++ [47] ++ percentEncode [63, 32] ∧
    (∀ b ∈ percentEncode [97, 47, 98] ++ percentEncode [63, 32],
      isUnreservedByte b = true ∨ b = 37 ∨ (48 ≤ b ∧ b ≤ 57) ∨ (65 ≤ b ∧ b ≤ 70)) ∧
    (∀ b ∈ percentEncode [97, 47, 98] ++ percentEncode [63, 32],
      b ≠ 47 ∧ b ≠ 63 ∧ b ≠ 35 ∧ b ≠ 32)) :=
  ⟨by decide, api_url_percent_encodes_segments [97, 47, 98] [63, 32] (by decide)⟩

/-- C10: `api_url` is a total function of its two inputs; on empty owner
and empty repo it returns exactly the bytes of
"https://api.github.com/repos//" — the empty segments pass through and
leave consecutive slashes. -/
theorem api_url_empty_inputs :
    api_url [] [] = strBytes "https://api.github.com/repos//" := by
  decide

theorem decodeRepoFields_none (fs : List (String × Json))
    (h : reqField decodeString "name" fs = none ∨ reqField decodeString "full_name" fs = none ∨
      reqField decodeString "html_url" fs = none ∨ reqField decodeOwner "owner" fs = none ∨
      reqField decodeUsize "stargazers_count" fs = none ∨
      reqField decodeUsize "subscribers_count" fs = none ∨
      reqField decodeUsize "forks_count" fs = none ∨
      reqField decodeUsize "open_issues_count" fs = none ∨
      reqField decodeBool "fork" fs = none ∨ reqField decodeBool "archived" fs = none ∨
      reqField decodeString "default_branch" fs = none ∨
      reqField decodeString "homepage" fs = none ∨
      reqField decodeString "description" fs = none ∨
      reqField decodeLicense "license" fs = none ∨
      reqField decodeString "language" fs = none ∨
      reqField decodeStringArray "topics" fs = none) :
    decodeRepoFields fs = none := by
  unfold decodeRepoFields
  split
  · rfl
  · split
    · rcases h with h|h|h|h|h|h|h|h|h|h|h|h|h|h|h|h <;> simp_all
    · rfl

theorem decodeOwnerFields_none (fs : List (String × Json))
    (h : reqField decodeString "login" fs = none ∨ reqField decodeString "html_url" fs = none ∨
      reqField decodeString "avatar_url" fs = none ∨ reqField decodeOwnerKind "type" fs = none) :
    decodeOwnerFields fs = none := by
  unfold decodeOwnerFields
  split
  · rfl
  · split
    · rcases h with h|h|h|h <;> simp_all
    · rfl

theorem lookupKey_eq_none_of_no_key (k : String) (fs : List (String × Json))
    (h : ∀ kv ∈ fs, kv.1 ≠ k) : lookupKey k fs = none := by
  induction fs with
  | nil => rfl
  | cons kv t ih =>
    have hbeq : (kv.1 == k) = false :=
      beq_eq_false_iff_ne.mpr (h kv (List.mem_cons_self kv t))
    simp only [lookupKey, hbeq, Bool.false_eq_true, if_false]
    exact ih fun x hx => h x (List.mem_cons_of_mem kv hx)

theorem get_decode_failure (owner repo : List Nat) (body : Json) (status : Nat)
    (h200 : 200 ≤ status) (h300 : status < 300)
    (hdec : decodeGhRepoInfo body = none) :
    gh_repo_info.get owner repo (fun _ => .response ⟨status, body⟩) =
      .error (.DeserializeFailed decodeBodyError) := by
  unfold gh_repo_info.get
  simp only [statusIsSuccess, hdec]
  rw [decide_eq_true (by omega : 200 ≤ status ∧ status < 300)]
  simp

/-- C3: on any response whose status lies outside 200-299, both the async
`get` and `blocking.get` return `ResponseNonSuccess` carrying that status
code, for every body — the body is never decoded, so no
`DeserializeFailed` can arise. -/
theorem get_non_success_status (owner repo : List Nat)
    (world : List Nat → TransportEvent) (status : Nat) (body : Json)
    (hresp : world (api_url owner repo) = .response ⟨status, body⟩)
    (hstatus : ¬(200 ≤ status ∧ status < 300)) :
    gh_repo_info.get owner repo world = .error (.ResponseNonSuccess status) ∧
    gh_repo_info.blocking.get owner repo world = .error (.ResponseNonSuccess status) := by
  constructor
  · unfold gh_repo_info.get
    rw [hresp]
    simp [statusIsSuccess, hstatus]
  · unfold gh_repo_info.blocking.get
    rw [hresp]
    simp [statusIsSuccess, hstatus]

theorem get_non_success_status_witness :
    gh_repo_info.get [] [] (fun _ => .response ⟨404, .null⟩) = .error (.ResponseNonSuccess 404) ∧
    gh_repo_info.blocking.get [] [] (fun _ => .response ⟨404, .null⟩) = .error (.ResponseNonSuccess 404) :=
  get_non_success_status [] [] _ 404 .null rfl (by decide)

/-- C4: if the owner object's `type` field holds any value other than the
literals `"User"` and `"Organization"`, decoding the body fails, and a
success-status call returns `DeserializeFailed` — the kind is never
defaulted. -/
theorem unrecognized_owner_kind_decode_fails
    (fs os : List (String × Json)) (v : Json)
    (howner : lookupKey "owner" fs = some (.obj os))
    (htype : lookupKey "type" os = some v)
    (hv : ∀ s, v = .str s → s ≠ "User" ∧ s ≠ "Organization") :
    decodeGhRepoInfo (.obj fs) = none ∧
    ∀ owner repo status, 200 ≤ status → status < 300 →
      gh_repo_info.get owner repo (fun _ => .response ⟨status, .obj fs⟩) =
        .error (.DeserializeFailed decodeBodyError) := by
  have hkind : decodeOwnerKind v = none := by
    cases v with
    | str s =>
      obtain ⟨h1, h2⟩ := hv s rfl
      simp [decodeOwnerKind, h1, h2]
    | null => rfl
    | bool b => rfl
    | num n => rfl
    | arr xs => rfl
    | obj gs => rfl
  have hos : decodeOwnerFields os = none := by
    apply decodeOwnerFields_none
    refine Or.inr (Or.inr (Or.inr ?_))
    simp [reqField, htype, hkind]
  have hfs : decodeRepoFields fs = none := by
    apply decodeRepoFields_none
    refine Or.inr (Or.inr (Or.inr (Or.inl ?_)))
    simp [reqField, howner, decodeOwner, hos]
  refine ⟨hfs, ?_⟩
  intro owner repo status h200 h300
  exact get_decode_failure owner repo (.obj fs) status h200 h300 hfs

theorem unrecognized_owner_kind_decode_fails_witness :
    decodeGhRepoInfo (.obj [("owner", .obj [("type", .str "Bot")])]) = none ∧
    ∀ owner repo status, 200 ≤ status → status < 300 →
      gh_repo_info.get owner repo (fun _ => .response ⟨status, .obj [("owner", .obj [("type", .str "Bot")])]⟩) =
        .error (.DeserializeFailed decodeBodyError) :=
  unrecognized_owner_kind_decode_fails _ _ _ rfl rfl
    (fun s h => by injection h with h; subst h; exact ⟨by decide, by decide⟩)

/-- C5: if the success-status body has no `license` field at all, decoding
fails and the call returns `DeserializeFailed` — absence is never mapped
to a default. -/
theorem missing_license_decode_fails (fs : List (String × Json))
    (h : ∀ kv ∈ fs, kv.1 ≠ "license") :
    decodeGhRepoInfo (.obj fs) = none ∧
    ∀ owner repo status, 200 ≤ status → status < 300 →
      gh_repo_info.get owner repo (fun _ => .response ⟨status, .obj fs⟩) =
        .error (.DeserializeFailed decodeBodyError) := by
  have hfs : decodeRepoFields fs = none := by
    apply decodeRepoFields_none
    refine Or.inr (Or.inr (Or.inr (Or.inr (Or.inr (Or.inr (Or.inr (Or.inr (Or.inr (Or.inr
      (Or.inr (Or.inr (Or.inr (Or.inl ?_)))))))))))))
    simp [reqField, lookupKey_eq_none_of_no_key "license" fs h]
  refine ⟨hfs, ?_⟩
  intro owner repo status h200 h300
  exact get_decode_failure owner repo (.obj fs) status h200 h300 hfs

theorem missing_license_decode_fails_witness :
    decodeGhRepoInfo (.obj [("name", .str "rust")]) = none ∧
    ∀ owner repo status, 200 ≤ status → status < 300 →
      gh_repo_info.get owner repo (fun _ => .response ⟨status, .obj [("name", .str "rust")]⟩) =
        .error (.DeserializeFailed decodeBodyError) :=
  missing_license_decode_fails _ (by decide)

/-- C8: a negative integer in any of the four count fields makes decoding
fail — the `usize` fields reject negative values instead of wrapping or
clamping them. -/
theorem negative_count_decode_fails (fs : List (String × Json)) (k : String) (n : Int)
    (hk : k = "stargazers_count" ∨ k = "subscribers_count" ∨
      k = "forks_count" ∨ k = "open_issues_count")
    (hlook : lookupKey k fs = some (.num n)) (hneg : n < 0) :
    decodeGhRepoInfo (.obj fs) = none := by
  have hval : decodeUsize (Json.num n) = none := by
    simp only [decodeUsize, if_neg (by omega : ¬0 ≤ n)]
  apply decodeRepoFields_none
  rcases hk with hk | hk | hk | hk <;> subst hk
  · refine Or.inr (Or.inr (Or.inr (Or.inr (Or.inl ?_))))
    simp [reqField, hlook, hval]
  · refine Or.inr (Or.inr (Or.inr (Or.inr (Or.inr (Or.inl ?_)))))
    simp [reqField, hlook, hval]
  · refine Or.inr (Or.inr (Or.inr (Or.inr (Or.inr (Or.inr (Or.inl ?_))))))
    simp [reqField, hlook, hval]
  · refine Or.inr (Or.inr (Or.inr (Or.inr (Or.inr (Or.inr (Or.inr (Or.inl ?_)))))))
    simp [reqField, hlook, hval]

theorem negative_count_decode_fails_witness :
    decodeGhRepoInfo (.obj [("stargazers_count", .num (-1))]) = none :=
  negative_count_decode_fails _ "stargazers_count" (-1) (Or.inl rfl) rfl (by decide)

/-- C6: every error kind renders a nonempty human-readable message; the
source chain exposes the wrapped cause for `SendRequest` (transport
failure) and `DeserializeFailed` (decode failure), and is empty for
`ResponseNonSuccess`. -/
theorem error_source_and_display :
    (∀ e : GhRepoInfoError, 0 < e.display.length) ∧
    (∀ err : ReqwestError, (GhRepoInfoError.SendRequest err).source = some err) ∧
    (∀ code : Nat, (GhRepoInfoError.ResponseNonSuccess code).source = none) ∧
    (∀ err : ReqwestError, (GhRepoInfoError.DeserializeFailed err).source = some err) := by
  refine ⟨?_, fun _ => rfl, fun _ => rfl, fun _ => rfl⟩
  intro e
  cases e <;> simp [GhRepoInfoError.display, String.length_append] <;> left <;> decide

/-- C7: the blocking variant and the suspending variant are the same
function of (owner, repo) and the server's behaviour: on identical
transport outcomes they return identical results — equal `GhRepoInfo`
values on success and the same error on failure. -/
theorem blocking_get_eq_get (owner repo : List Nat) (world : List Nat → TransportEvent) :
    gh_repo_info.blocking.get owner repo world = gh_repo_info.get owner repo world := rfl

/-- C2 counterexample: the claim's rename list is incomplete.  The owner
struct field `name` is filled from the external field `login` — a rename
outside the claimed set — so "every other field maps under an identical
name" is false: an otherwise-valid owner object using the identical key
`name` fails to decode, while the same object keyed `login` succeeds. -/
theorem field_map_claim_counterexample :
    ¬(∀ p ∈ ghRepoInfoFieldMap ++ ghRepoOwnerInfoFieldMap ++ ghRepoLicenseInfoFieldMap,
        p.1 ≠ p.2 →
        p = ("html_url", "url") ∨ p = ("fork", "is_fork") ∨
        p = ("archived", "is_archived") ∨ p = ("type", "kind")) ∧
    decodeOwnerFields
      [("name", .str "alice"), ("html_url", .str "u"),
       ("avatar_url", .str "a"), ("type", .str "User")] = none ∧
    decodeOwnerFields
      [("login", .str "alice"), ("html_url", .str "u"),
       ("avatar_url", .str "a"), ("type", .str "User")] =
      some ⟨"alice", "u", "a", .User⟩ :=
  ⟨by decide, rfl, rfl⟩

/-- C2 amended: the complete set of external-to-internal renames is
`html_url` → `url` (on both the repository and the owner record),
`fork` → `is_fork`, `archived` → `is_archived`, `type` → `kind` and
`login` → `name` (both on the owner record); every other field maps
under an identical name. -/
theorem field_renames_exact :
    ghRepoInfoFieldMap.filter (fun p => p.1 != p.2) =
      [("html_url", "url"), ("fork", "is_fork"), ("archived", "is_archived")] ∧
    ghRepoOwnerInfoFieldMap.filter (fun p => p.1 != p.2) =
      [("login", "name"), ("html_url", "url"), ("type", "kind")] ∧
    ghRepoLicenseInfoFieldMap.filter (fun p => p.1 != p.2) = [] := by
  decide

/-- The sublist of an object's entries whose keys a decoder recognises. -/
def keepKnown (keys : List String) : List (String × Json) → List (String × Json)
  | [] => []
  | kv :: t => if keys.contains kv.1 then kv :: keepKnown keys t else keepKnown keys t

theorem contains_of_mem (l : List String) (k : String) (hk : k ∈ l) : l.contains k = true := by
  simpa using hk

theorem lookupKey_keepKnown (keys : List String) (k : String) (hk : keys.contains k = true)
    (fs : List (String × Json)) :
    lookupKey k (keepKnown keys fs) = lookupKey k fs := by
  induction fs with
  | nil => rfl
  | cons kv t ih =>
    by_cases hc : keys.contains kv.1 = true
    · simp only [keepKnown]
      rw [if_pos hc]
      simp only [lookupKey, ih]
    · have hne : (kv.1 == k) = false :=
        beq_eq_false_iff_ne.mpr fun he => hc (by rw [he]; exact hk)
      simp only [keepKnown]
      rw [if_neg hc, ih]
      simp [lookupKey, hne]

theorem countP_keepKnown (keys : List String) (k : String) (hk : keys.contains k = true)
    (fs : List (String × Json)) :
    (keepKnown keys fs).countP (fun kv => kv.1 == k) = fs.countP (fun kv => kv.1 == k) := by
  induction fs with
  | nil => rfl
  | cons kv t ih =>
    by_cases hc : keys.contains kv.1 = true
    · simp only [keepKnown]
      rw [if_pos hc]
      simp only [List.countP_cons, ih]
    · have hne : (kv.1 == k) = false :=
        beq_eq_false_iff_ne.mpr fun he => hc (by rw [he]; exact hk)
      simp only [keepKnown]
      rw [if_neg hc, ih]
      simp [List.countP_cons, hne]

theorem any_eq_of_forall_mem (l : List String) (f g : String → Bool)
    (h : ∀ k ∈ l, f k = g k) : l.any f = l.any g := by
  induction l with
  | nil => rfl
  | cons a t ih =>
    simp only [List.any_cons, h a (List.mem_cons_self a t)]
    rw [ih fun k hk => h k (List.mem_cons_of_mem a hk)]

theorem dupKnownKey_keepKnown (keys : List String) (fs : List (String × Json)) :
    dupKnownKey keys (keepKnown keys fs) = dupKnownKey keys fs := by
  unfold dupKnownKey
  apply any_eq_of_forall_mem
  intro k hk
  rw [countP_keepKnown keys k (contains_of_mem keys k hk) fs]

theorem decodeRepoFields_congr (fs gs : List (String × Json))
    (h : keepKnown repoKeys fs = keepKnown repoKeys gs) :
    decodeRepoFields fs = decodeRepoFields gs := by
  have hdup : dupKnownKey repoKeys fs = dupKnownKey repoKeys gs := by
    rw [← dupKnownKey_keepKnown repoKeys fs, h, dupKnownKey_keepKnown]
  have hlk : ∀ k, repoKeys.contains k = true → lookupKey k fs = lookupKey k gs := by
    intro k hk
    rw [← lookupKey_keepKnown repoKeys k hk fs, h, lookupKey_keepKnown repoKeys k hk gs]
  unfold decodeRepoFields reqField
  rw [hdup, hlk "name" (by decide), hlk "full_name" (by decide), hlk "html_url" (by decide),
    hlk "owner" (by decide), hlk "stargazers_count" (by decide),
    hlk "subscribers_count" (by decide), hlk "forks_count" (by decide),
    hlk "open_issues_count" (by decide), hlk "fork" (by decide), hlk "archived" (by decide),
    hlk "default_branch" (by decide), hlk "homepage" (by decide),
    hlk "description" (by decide), hlk "license" (by decide), hlk "language" (by decide),
    hlk "topics" (by decide)]

theorem decodeOwnerFields_congr (fs gs : List (String × Json))
    (h : keepKnown ownerKeys fs = keepKnown ownerKeys gs) :
    decodeOwnerFields fs = decodeOwnerFields gs := by
  have hdup : dupKnownKey ownerKeys fs = dupKnownKey ownerKeys gs := by
    rw [← dupKnownKey_keepKnown ownerKeys fs, h, dupKnownKey_keepKnown]
  have hlk : ∀ k, ownerKeys.contains k = true → lookupKey k fs = lookupKey k gs := by
    intro k hk
    rw [← lookupKey_keepKnown ownerKeys k hk fs, h, lookupKey_keepKnown ownerKeys k hk gs]
  unfold decodeOwnerFields reqField
  rw [hdup, hlk "login" (by decide), hlk "html_url" (by decide),
    hlk "avatar_url" (by decide), hlk "type" (by decide)]

theorem decodeLicenseFields_congr (fs gs : List (String × Json))
    (h : keepKnown licenseKeys fs = keepKnown licenseKeys gs) :
    decodeLicenseFields fs = decodeLicenseFields gs := by
  have hdup : dupKnownKey licenseKeys fs = dupKnownKey licenseKeys gs := by
    rw [← dupKnownKey_keepKnown licenseKeys fs, h, dupKnownKey_keepKnown]
  have hlk : ∀ k, licenseKeys.contains k = true → lookupKey k fs = lookupKey k gs := by
    intro k hk
    rw [← lookupKey_keepKnown licenseKeys k hk fs, h, lookupKey_keepKnown licenseKeys k hk gs]
  unfold decodeLicenseFields reqField
  rw [hdup, hlk "key" (by decide), hlk "name" (by decide)]

/-- C9: decoding depends only on the recognised fields.  Two bodies (or
owner objects, or license objects) whose recognised-key entries agree —
i.e. they differ only in extra unrecognised fields — decode to the same
result, so extra fields never change a successful decode's value and
never make it fail. -/
theorem decode_unaffected_by_unknown_fields :
    (∀ fs gs : List (String × Json), keepKnown repoKeys fs = keepKnown repoKeys gs →
      decodeGhRepoInfo (.obj fs) = decodeGhRepoInfo (.obj gs)) ∧
    (∀ fs gs : List (String × Json), keepKnown ownerKeys fs = keepKnown ownerKeys gs →
      decodeOwner (.obj fs) = decodeOwner (.obj gs)) ∧
    (∀ fs gs : List (String × Json), keepKnown licenseKeys fs = keepKnown licenseKeys gs →
      decodeLicense (.obj fs) = decodeLicense (.obj gs)) :=
  ⟨fun fs gs h => decodeRepoFields_congr fs gs h,
   fun fs gs h => decodeOwnerFields_congr fs gs h,
   fun fs gs h => decodeLicenseFields_congr fs gs h⟩

/-- The doc-comment example body from src/lib.rs, as an object field list. -/
def sampleRepoFields : List (String × Json) :=
  [("name", .str "rust"), ("full_name", .str "rust-lang/rust"),
   ("html_url", .str "https://github.com/rust-lang/rust"),
   ("owner", .obj [("login", .str "rust-lang"),
     ("html_url", .str "https://github.com/rust-lang"),
     ("avatar_url", .str "https://avatars.githubusercontent.com/u/5430905?v=4"),
     ("type", .str "Organization")]),
   ("stargazers_count", .num 82127), ("subscribers_count", .num 1489),
   ("forks_count", .num 10830), ("open_issues_count", .num 9549),
   ("fork", .bool false), ("archived", .bool false),
   ("default_branch", .str "master"), ("homepage", .str "https://www.rust-lang.org"),
   ("description", .str "Empowering everyone to build reliable and efficient software."),
   ("license", .obj [("key", .str "other"), ("name", .str "Other")]),
   ("language", .str "Rust"),
   ("topics", .arr [.str "compiler", .str "language", .str "rust"])]

theorem decode_unaffected_by_unknown_fields_witness :
    decodeGhRepoInfo (.obj (sampleRepoFields ++ [("node_id", .str "x"), ("size", .num 1)])) =
      decodeGhRepoInfo (.obj sampleRepoFields) ∧
    decodeGhRepoInfo (.obj sampleRepoFields) =
      some ⟨"rust", "rust-lang/rust", "https://github.com/rust-lang/rust",
        ⟨"rust-lang", "https://github.com/rust-lang",
          "https://avatars.githubusercontent.com/u/5430905?v=4", .Organization⟩,
        82127, 1489, 10830, 9549, false, false, "master", "https://www.rust-lang.org",
        "Empowering everyone to build reliable and efficient software.",
        ⟨"other", "Other"⟩, "Rust", ["compiler", "language", "rust"]⟩ :=
  ⟨decode_unaffected_by_unknown_fields.1 _ _ rfl, rfl⟩
